import Mathlib

/-!
Shallow embedding of the AVR two-wire (I2C-style) bus master driver in
src/src/i2.c and src/include/i2c.h.

The driver manipulates four memory-mapped 8-bit hardware registers:
TWBR (bit rate divisor), TWSR (status, with prescaler in bits 1:0),
TWDR (data) and TWCR (control).  We model the global register file as a
record of natural numbers and thread it explicitly through each
operation.  Hardware responses (the status code published after a bus
phase completes) are supplied by an oracle `env : Nat -> Nat`, indexed
by a phase counter that every completion wait advances; on completion
the hardware sets the TWINT flag (bit 7 of TWCR) and writes the 5-bit
status code into bits 7:3 of TWSR, leaving the software-owned prescaler
bits 2:0 untouched (TWSR is read-only to software except at init).

Each operation additionally returns a ghost trace of events: the
register writes it performs, the completion waits it blocks on, and the
status comparisons it computes (with the computed boolean), so that
claims about write patterns, ordering, blocking and discarded results
can be stated.
-/

/-- The four memory-mapped registers of the two-wire interface. -/
structure Regs where
  twbr : Nat
  twsr : Nat
  twdr : Nat
  twcr : Nat
deriving Repr, DecidableEq

/-- Status code TW_START from avr-libc util/twi.h: start condition generated. -/
def TW_START : Nat := 0x08

/-- Status code TW_MT_SLA_ACK from avr-libc util/twi.h: SLA+W transmitted, ACK received. -/
def TW_MT_SLA_ACK : Nat := 0x18

/-- Status code TW_MR_SLA_ACK from avr-libc util/twi.h: SLA+R transmitted, ACK received. -/
def TW_MR_SLA_ACK : Nat := 0x40

/-- Status code TW_MT_DATA_ACK from avr-libc util/twi.h: data transmitted, ACK received. -/
def TW_MT_DATA_ACK : Nat := 0x28

/-- Mask TW_STATUS_MASK from avr-libc util/twi.h: selects the status bits of TWSR. -/
def TW_STATUS_MASK : Nat := 0xF8

/-- Target bus clock frequency, from src/include/i2c.h: 400000UL. -/
def F_SCL : Nat := 400000

/-- Ghost trace events: the register writes an operation performs, the
completion waits it blocks on, and the status comparisons it computes
(recording the boolean the comparison produced). -/
inductive Ev where
  | wTWBR (v : Nat)
  | wTWSR (v : Nat)
  | wTWDR (v : Nat)
  | wTWCR (v : Nat)
  | waitDone
  | statCheck (expected : Nat) (result : Bool)
deriving Repr, DecidableEq

/-- The register-write events of a trace. -/
def regWrites (t : List Ev) : List Ev :=
  t.filter fun e =>
    match e with
    | .wTWBR _ => true
    | .wTWSR _ => true
    | .wTWDR _ => true
    | .wTWCR _ => true
    | _ => false

/-- The values written to the control register TWCR, in order. -/
def ctrlWrites (t : List Ev) : List Nat :=
  t.filterMap fun e =>
    match e with
    | .wTWCR v => some v
    | _ => none

/-- The values written to the data register TWDR, in order. -/
def dataWrites (t : List Ev) : List Nat :=
  t.filterMap fun e =>
    match e with
    | .wTWDR v => some v
    | _ => none

/-- The expected status codes of the status comparisons in a trace, in order. -/
def expectedCodes (t : List Ev) : List Nat :=
  t.filterMap fun e =>
    match e with
    | .statCheck c _ => some c
    | _ => none

/-- Whether a trace contains a completion wait. -/
def hasWait (t : List Ev) : Bool :=
  t.any fun e =>
    match e with
    | .waitDone => true
    | _ => false

/-- i2cInit from i2.c: TWSR = 0 (clearing the prescaler bits TWPS1:TWPS0),
then TWBR = ((F_CPU / (8 * F_SCL)) - 2).  The two clock frequencies are
compile-time constants (F_CPU from the build environment, F_SCL from
i2c.h); we take them as parameters, reduced mod 2^32 because both macros
are unsigned long (32 bits on AVR).  The expression is evaluated in
unsigned long arithmetic — the multiplication and the subtraction of 2
wrap mod 2^32, subtraction written as addition of 2^32 - 2 — and the
store into the 8-bit TWBR register truncates the result mod 256. -/
def i2cInit (fCpu fScl : Nat) (st : Regs) : Regs × List Ev :=
  let st1 := { st with twsr := 0 }
  let d := ((fCpu % 2 ^ 32) / (8 * (fScl % 2 ^ 32) % 2 ^ 32) + (2 ^ 32 - 2)) % 2 ^ 32 % 256
  let st2 := { st1 with twbr := d }
  (st2, [Ev.wTWSR 0, Ev.wTWBR d])

/-- i2cAwaitCompletion from i2.c, at the level of its caller-visible
effect: `while (!(TWCR & 0x80));` blocks until the hardware raises the
TWINT flag.  The loop body writes nothing.  On completion the hardware
sets bit 7 of TWCR and publishes the 5-bit status code `env n` in bits
7:3 of TWSR, leaving the software-owned prescaler bits of TWSR intact;
the phase counter advances.  The poll loop itself is modelled separately
by `awaitPoll`. -/
def i2cAwaitCompletion (env : Nat → Nat) (n : Nat) (st : Regs) :
    Nat × Regs × List Ev :=
  (n + 1,
   { st with twcr := st.twcr ||| 0x80,
             twsr := 8 * (env n % 32) + st.twsr % 8 },
   [Ev.waitDone])

/-- The poll loop of i2cAwaitCompletion from i2.c, read-by-read:
`while (!(TWCR & 0x80));`.  `polls i` is the TWCR value observed by the
i-th read of the register.  The loop is not bounded in the source; we
model it with explicit fuel so that non-termination on a bus that never
completes is expressible: `none` means the fuel ran out with the flag
still clear. -/
def awaitPoll (polls : Nat → Nat) : Nat → Nat → Option Nat
  | _, 0 => none
  | i, fuel + 1 =>
    if polls i &&& 0x80 ≠ 0 then some i else awaitPoll polls (i + 1) fuel

/-- Value of a C `char` holding the byte b, as the `int` it promotes to
in a comparison: plain char is signed on avr-gcc, so bytes 0x00 to 0x7F
promote to themselves and bytes 0x80 to 0xFF promote to their
sign-extended negative values. -/
def signedCharVal (b : Nat) : Int :=
  if b % 256 < 128 then ((b % 256 : Nat) : Int) else ((b % 256 : Nat) : Int) - 256

/-- i2cCheckStatus from i2.c: `return (TW_STATUS == expectedStatus);`
where TW_STATUS is (TWSR & TW_STATUS_MASK).  The parameter is a C char,
signed on avr-gcc: the comparison promotes both operands to int, the
masked register (a uint8_t value, 0 to 248) to itself and the char to
its sign-extended value, so the two sides are compared as mathematical
integers via signedCharVal.  Reads TWSR only; writes no register
(reflected in the type: no register state is produced). -/
def i2cCheckStatus (st : Regs) (expectedStatus : Nat) : Bool :=
  ((st.twsr &&& TW_STATUS_MASK : Nat) : Int) == signedCharVal expectedStatus

/-- i2cStart from i2.c: TWCR = 0xA4; i2cAwaitCompletion();
i2cCheckStatus(TW_START).  The computed boolean is discarded. -/
def i2cStart (env : Nat → Nat) (n : Nat) (st : Regs) : Nat × Regs × List Ev :=
  let st1 := { st with twcr := 0xA4 }
  let (n1, st2, t1) := i2cAwaitCompletion env n st1
  let r := i2cCheckStatus st2 TW_START
  (n1, st2, Ev.wTWCR 0xA4 :: t1 ++ [Ev.statCheck TW_START r])

/-- i2cSendAddress from i2.c: if (rw) TWDR = ((address << 1) & 0xFE);
else TWDR = ((address << 1) | 0x01); then TWCR = 0x84;
i2cAwaitCompletion(); i2cCheckStatus(TW_MT_SLA_ACK).  The `rw` argument
is a C int tested for truthiness; `address` is a 7-bit slave address. -/
def i2cSendAddress (env : Nat → Nat) (n : Nat) (st : Regs)
    (address rw : Nat) : Nat × Regs × List Ev :=
  let staged := if rw ≠ 0 then (address <<< 1) &&& 0xFE else (address <<< 1) ||| 0x01
  let st1 := { st with twdr := staged }
  let st2 := { st1 with twcr := 0x84 }
  let (n1, st3, t1) := i2cAwaitCompletion env n st2
  let r := i2cCheckStatus st3 TW_MT_SLA_ACK
  (n1, st3,
   Ev.wTWDR staged :: Ev.wTWCR 0x84 :: t1 ++ [Ev.statCheck TW_MT_SLA_ACK r])

/-- i2cSendByte from i2.c: TWDR = byte; TWCR = 0x84; i2cAwaitCompletion();
i2cCheckStatus(TW_MT_DATA_ACK).  The function returns void: the computed
boolean appears only in the ghost trace, never in the caller-visible
result. -/
def i2cSendByte (env : Nat → Nat) (n : Nat) (st : Regs) (b : Nat) :
    Nat × Regs × List Ev :=
  let st1 := { st with twdr := b }
  let st2 := { st1 with twcr := 0x84 }
  let (n1, st3, t1) := i2cAwaitCompletion env n st2
  let r := i2cCheckStatus st3 TW_MT_DATA_ACK
  (n1, st3,
   Ev.wTWDR b :: Ev.wTWCR 0x84 :: t1 ++ [Ev.statCheck TW_MT_DATA_ACK r])

/-- The loop body of i2cSendData from i2.c:
`for (int i = 0; i < argc; i++) i2cSendByte(va_arg(valist, int));`.
`vaArg i` is the i-th variadic argument; `rem` counts the remaining
iterations (argc - i). -/
def i2cSendDataLoop (env vaArg : Nat → Nat) :
    Nat → Nat → Nat → Regs → Nat × Regs × List Ev
  | _, 0, n, st => (n, st, [])
  | i, rem + 1, n, st =>
    let r1 := i2cSendByte env n st (vaArg i)
    let r2 := i2cSendDataLoop env vaArg (i + 1) rem r1.1 r1.2.1
    (r2.1, r2.2.1, r1.2.2 ++ r2.2.2)

/-- i2cSendData from i2.c: runs the loop over the argc variadic
arguments, starting at index 0. -/
def i2cSendData (env vaArg : Nat → Nat) (argc : Nat) (n : Nat) (st : Regs) :
    Nat × Regs × List Ev :=
  i2cSendDataLoop env vaArg 0 argc n st

/-- Sequential composition of plain i2cSendByte calls on a list of
bytes, in list order: the comparison object for the claim that
i2cSendData is equivalent to n individual i2cSendByte calls. -/
def sendByteSeq (env : Nat → Nat) :
    List Nat → Nat → Regs → Nat × Regs × List Ev
  | [], n, st => (n, st, [])
  | b :: bs, n, st =>
    let r1 := i2cSendByte env n st b
    let r2 := sendByteSeq env bs r1.1 r1.2.1
    (r2.1, r2.2.1, r1.2.2 ++ r2.2.2)

/-- i2cStop from i2.c: TWCR = 0x94; and nothing else — no completion
wait, no status check. -/
def i2cStop (n : Nat) (st : Regs) : Nat × Regs × List Ev :=
  (n, { st with twcr := 0x94 }, [Ev.wTWCR 0x94])

/-- C1: the claim says selectAddress stages (addr << 1) | directionBit
with read mapping to bit 0 = 1 and write to bit 0 = 0, in particular
0xA0 for selectAddress(0x50, write).  The rw parameter of
i2cSendAddress is the R/W bit, documented in the function comment of
i2.c as 1 = Read, 0 = Write; under that documented convention the code
is inverted: rw = 0 (write) stages ((0x50 << 1) | 0x01) = 0xA1 with bit
0 set, and rw = 1 (read) stages ((0x50 << 1) & 0xFE) = 0xA0 with bit 0
clear.  This theorem evaluates the embedded code at the failing input. -/
theorem i2cSendAddress_direction_bit_inverted :
    (i2cSendAddress (fun _ => 0) 0 ⟨0, 0, 0, 0⟩ 0x50 0).2.1.twdr = 0xA1 ∧
    (i2cSendAddress (fun _ => 0) 0 ⟨0, 0, 0, 0⟩ 0x50 1).2.1.twdr = 0xA0 ∧
    dataWrites (i2cSendAddress (fun _ => 0) 0 ⟨0, 0, 0, 0⟩ 0x50 0).2.2 = [0xA1] ∧
    dataWrites (i2cSendAddress (fun _ => 0) 0 ⟨0, 0, 0, 0⟩ 0x50 1).2.2 = [0xA0] := by
  refine ⟨rfl, rfl, rfl, rfl⟩

/-- C2 counterexample: the clock pair 16 MHz / 1 kHz satisfies the
cpuClock >= 16 x busClock hypothesis and gives the formula value
16000000 / (8 * 1000) - 2 = 1998, but the 8-bit divisor register really
holds 1998 mod 256 = 206 after initialization, so the universally
quantified claim is false of the program at this input. -/
theorem i2cInit_clock_config_counterexample :
    16 * 1000 ≤ 16000000 ∧
    16000000 / (8 * 1000) - 2 = 1998 ∧
    (i2cInit 16000000 1000 ⟨0, 0, 0, 0⟩).1.twbr = 206 ∧
    (i2cInit 16000000 1000 ⟨0, 0, 0, 0⟩).1.twbr ≠ 16000000 / (8 * 1000) - 2 := by
  refine ⟨by decide, by decide, by decide, by decide⟩

/-- C2 (amended): under the preconditions fCpu >= 16 * fScl (with a
nonzero bus clock), fCpu < 2^32 (an unsigned long value), and the
computed divisor fitting the 8-bit register
(fCpu / (8 * fScl) - 2 <= 255), i2cInit writes exactly
(fCpu / (8 * fScl)) - 2 to the bit rate divisor register TWBR — with no
truncation in the subtraction and no wrap in the store — and writes 0
to TWSR, putting the prescaler bits TWPS1:TWPS0 at the zero
(divide-by-1) setting. -/
theorem i2cInit_clock_config (fCpu fScl : Nat) (st : Regs)
    (h1 : 0 < fScl) (h2 : 16 * fScl ≤ fCpu) (h3 : fCpu < 2 ^ 32)
    (h4 : fCpu / (8 * fScl) - 2 ≤ 255) :
    (i2cInit fCpu fScl st).1.twbr + 2 = fCpu / (8 * fScl) ∧
    (i2cInit fCpu fScl st).1.twbr = fCpu / (8 * fScl) - 2 ∧
    (i2cInit fCpu fScl st).1.twsr = 0 ∧
    (i2cInit fCpu fScl st).1.twsr % 4 = 0 := by
  have hq : 2 ≤ fCpu / (8 * fScl) := by
    rw [Nat.le_div_iff_mul_le (by positivity)]
    omega
  have e1 : fCpu % 2 ^ 32 = fCpu := Nat.mod_eq_of_lt h3
  have e2 : fScl % 2 ^ 32 = fScl := Nat.mod_eq_of_lt (by omega)
  have e3 : 8 * fScl % 2 ^ 32 = 8 * fScl := Nat.mod_eq_of_lt (by omega)
  have key : (i2cInit fCpu fScl st).1.twbr = fCpu / (8 * fScl) - 2 := by
    show ((fCpu % 2 ^ 32) / (8 * (fScl % 2 ^ 32) % 2 ^ 32) + (2 ^ 32 - 2)) % 2 ^ 32 % 256 =
      fCpu / (8 * fScl) - 2
    rw [e2, e3, e1]
    revert hq h4
    generalize fCpu / (8 * fScl) = q
    intro hq h4
    omega
  exact ⟨by rw [key]; exact Nat.sub_add_cancel hq, key, rfl, rfl⟩

/-- Witness for C2 at the spec scenario: a 16 MHz processor clock and
the 400 kHz bus clock of i2c.h satisfy every precondition and give
divisor register value 3. -/
theorem i2cInit_clock_config_witness :
    (0 < F_SCL ∧ 16 * F_SCL ≤ 16000000 ∧ 16000000 < 2 ^ 32 ∧
     16000000 / (8 * F_SCL) - 2 ≤ 255) ∧
    ((i2cInit 16000000 F_SCL ⟨0, 0, 0, 0⟩).1.twbr + 2 = 16000000 / (8 * F_SCL) ∧
     (i2cInit 16000000 F_SCL ⟨0, 0, 0, 0⟩).1.twbr = 16000000 / (8 * F_SCL) - 2 ∧
     (i2cInit 16000000 F_SCL ⟨0, 0, 0, 0⟩).1.twsr = 0 ∧
     (i2cInit 16000000 F_SCL ⟨0, 0, 0, 0⟩).1.twsr % 4 = 0) ∧
    (i2cInit 16000000 F_SCL ⟨0, 0, 0, 0⟩).1.twbr = 3 :=
  ⟨⟨by decide, by decide, by decide, by decide⟩,
   i2cInit_clock_config 16000000 F_SCL ⟨0, 0, 0, 0⟩
     (by decide) (by decide) (by decide) (by decide),
   by decide⟩

/-- C3: i2cSendByte computes the acknowledgment check internally (the
trace records a statCheck event carrying the boolean actually computed
on the post-completion state) but its caller-visible result contains no
boolean: the phase counter, every driver-written register (TWBR, TWDR,
TWCR) and the whole register-write trace are identical under any two
hardware responses, so a failed acknowledgment is invisible at the
public interface of i2cSendByte (only the raw hardware status register
differs, which a caller can see only by redoing the check itself). -/
theorem i2cSendByte_discards_ack (env env2 : Nat → Nat) (n : Nat)
    (st : Regs) (b : Nat) :
    (i2cSendByte env n st b).2.2 =
      [Ev.wTWDR b, Ev.wTWCR 0x84, Ev.waitDone,
       Ev.statCheck TW_MT_DATA_ACK
         (i2cCheckStatus (i2cSendByte env n st b).2.1 TW_MT_DATA_ACK)] ∧
    (i2cSendByte env n st b).1 = (i2cSendByte env2 n st b).1 ∧
    (i2cSendByte env n st b).2.1.twbr = (i2cSendByte env2 n st b).2.1.twbr ∧
    (i2cSendByte env n st b).2.1.twdr = (i2cSendByte env2 n st b).2.1.twdr ∧
    (i2cSendByte env n st b).2.1.twcr = (i2cSendByte env2 n st b).2.1.twcr ∧
    regWrites (i2cSendByte env n st b).2.2 =
      regWrites (i2cSendByte env2 n st b).2.2 := by
  refine ⟨rfl, rfl, rfl, rfl, rfl, rfl⟩

/-- C5 counterexample: with the status register holding 0xF8, the top
five bits masked with 0xF8 equal the expected code 0xF8 (a reserved
code, TW_NO_INFO), yet i2cCheckStatus returns false: the signed char
parameter promotes 0xF8 to -8 while the masked register promotes to
248, so the claimed iff fails at this input. -/
theorem i2cCheckStatus_correct_counterexample :
    (⟨0, 0xF8, 0, 0⟩ : Regs).twsr &&& 0xF8 = 0xF8 ∧
    i2cCheckStatus ⟨0, 0xF8, 0, 0⟩ 0xF8 = false := by
  refine ⟨by decide, by decide⟩

/-- C5 (amended): for every status-register value and every expected
code that is a char byte (c < 256): when the code is below 0x80 — which
covers every status code the driver itself uses — i2cCheckStatus
returns true exactly when the status register masked with
TW_STATUS_MASK = 0xF8 (the top five status-code bits) equals the code,
and false for every other masked value; when the code is 0x80 or above,
its signed-char value is negative and i2cCheckStatus returns false even
on a matching bit pattern.  It produces no register state (its type
returns only the boolean, matching the read-only source). -/
theorem i2cCheckStatus_correct (st : Regs) (c : Nat) (hc : c < 256) :
    (c < 128 →
      ((i2cCheckStatus st c = true ↔ st.twsr &&& 0xF8 = c) ∧
       (i2cCheckStatus st c = false ↔ st.twsr &&& 0xF8 ≠ c))) ∧
    (128 ≤ c → i2cCheckStatus st c = false) := by
  have hm : c % 256 = c := Nat.mod_eq_of_lt hc
  constructor
  · intro hlt
    have hval : signedCharVal c = (c : Int) := by
      simp only [signedCharVal, hm]
      rw [if_pos hlt]
    have hs : i2cCheckStatus st c =
        (((st.twsr &&& TW_STATUS_MASK : Nat) : Int) == (c : Int)) := by
      show (((st.twsr &&& TW_STATUS_MASK : Nat) : Int) == signedCharVal c) = _
      rw [hval]
    constructor
    · rw [hs]
      simp [TW_STATUS_MASK]
    · rw [hs]
      simp [TW_STATUS_MASK]
  · intro hge
    have hval : signedCharVal c = (c : Int) - 256 := by
      simp only [signedCharVal, hm]
      rw [if_neg (by omega)]
    show (((st.twsr &&& TW_STATUS_MASK : Nat) : Int) == signedCharVal c) = false
    rw [hval, beq_eq_false_iff_ne]
    intro heq
    omega

/-- Witness for C5: the check against the driver code 0x28 returns true
on a status register holding 0x2B (masked: 0x28), and the check against
the reserved high code 0xF8 returns false even on the matching register
value 0xF8. -/
theorem i2cCheckStatus_correct_witness :
    i2cCheckStatus ⟨0, 0x2B, 0, 0⟩ 0x28 = true ∧
    i2cCheckStatus ⟨0, 0xF8, 0, 0⟩ 0xF8 = false :=
  ⟨((i2cCheckStatus_correct ⟨0, 0x2B, 0, 0⟩ 0x28 (by decide)).1
      (by decide)).1.mpr (by decide),
   (i2cCheckStatus_correct ⟨0, 0xF8, 0, 0⟩ 0xF8 (by decide)).2 (by decide)⟩

/-- C6: i2cStart performs exactly one control-register write, the
pattern 0xA4 — start bit TWSTA (bit 5) set, stop bit TWSTO (bit 4)
clear, enable bit TWEN (bit 2) set — then blocks on completion, then
computes the status comparison against TW_START, in that order. -/
theorem i2cStart_control_pattern (env : Nat → Nat) (n : Nat) (st : Regs) :
    (∃ r, (i2cStart env n st).2.2 =
      [Ev.wTWCR 0xA4, Ev.waitDone, Ev.statCheck TW_START r]) ∧
    ctrlWrites (i2cStart env n st).2.2 = [0xA4] ∧
    Nat.testBit 0xA4 5 = true ∧
    Nat.testBit 0xA4 4 = false ∧
    Nat.testBit 0xA4 2 = true := by
  refine ⟨⟨_, rfl⟩, rfl, by decide, by decide, by decide⟩

/-- C7: i2cStop writes the single control pattern 0x94 — stop bit TWSTO
(bit 4) set, start bit TWSTA (bit 5) clear, enable bit TWEN (bit 2)
set — and returns at once: its trace contains no completion wait and no
status comparison, the phase counter does not advance, and this holds
for every register state. -/
theorem i2cStop_fire_and_forget (n : Nat) (st : Regs) :
    (i2cStop n st).2.2 = [Ev.wTWCR 0x94] ∧
    hasWait (i2cStop n st).2.2 = false ∧
    expectedCodes (i2cStop n st).2.2 = [] ∧
    (i2cStop n st).1 = n ∧
    (i2cStop n st).2.1 = { st with twcr := 0x94 } ∧
    Nat.testBit 0x94 4 = true ∧
    Nat.testBit 0x94 5 = false ∧
    Nat.testBit 0x94 2 = true := by
  refine ⟨rfl, rfl, rfl, rfl, rfl, by decide, by decide, by decide⟩

/-- Helper: the caller-visible result of one i2cSendByte call — the
phase counter advances by one and the register file afterwards holds the
sent byte in TWDR, the transmit pattern (with the completion flag raised
by the hardware) in TWCR, the hardware status in bits 7:3 of TWSR, and
an untouched TWBR. -/
theorem i2cSendByte_result_state (env : Nat → Nat) (n : Nat) (st : Regs)
    (b : Nat) :
    (i2cSendByte env n st b).1 = n + 1 ∧
    (i2cSendByte env n st b).2.1 =
      { twbr := st.twbr, twsr := 8 * (env n % 32) + st.twsr % 8,
        twdr := b, twcr := 0x84 ||| 0x80 } :=
  ⟨rfl, rfl⟩

/-- Helper: expectedCodes distributes over trace concatenation. -/
theorem expectedCodes_append (t1 t2 : List Ev) :
    expectedCodes (t1 ++ t2) = expectedCodes t1 ++ expectedCodes t2 :=
  List.filterMap_append t1 t2 _

/-- Helper: dataWrites distributes over trace concatenation. -/
theorem dataWrites_append (t1 t2 : List Ev) :
    dataWrites (t1 ++ t2) = dataWrites t1 ++ dataWrites t2 :=
  List.filterMap_append t1 t2 _

/-- Helper: the i2cSendData loop starting at argument index i with rem
iterations left equals the sequential composition of plain i2cSendByte
calls on arguments i, i+1, ..., i+rem-1, in order. -/
theorem sendDataLoop_eq_seq (env vaArg : Nat → Nat) :
    ∀ (rem i n : Nat) (st : Regs),
      i2cSendDataLoop env vaArg i rem n st =
        sendByteSeq env ((List.range rem).map fun j => vaArg (i + j)) n st := by
  intro rem
  induction rem with
  | zero => intro i n st; rfl
  | succ rem ih =>
    intro i n st
    have hmap : ((List.range (rem + 1)).map fun j => vaArg (i + j)) =
        vaArg i :: ((List.range rem).map fun j => vaArg (i + 1 + j)) := by
      rw [List.range_succ_eq_map, List.map_cons, List.map_map]
      congr 1
      exact List.map_congr_left fun j _ => by
        show vaArg (i + (j + 1)) = vaArg (i + 1 + j)
        congr 1
        omega
    rw [hmap]
    simp only [i2cSendDataLoop, sendByteSeq]
    rw [ih]

/-- Helper: the data-register writes of a sequence of i2cSendByte calls
are exactly the bytes of the sequence, in order, for every hardware
response. -/
theorem sendByteSeq_dataWrites (env : Nat → Nat) :
    ∀ (bs : List Nat) (n : Nat) (st : Regs),
      dataWrites (sendByteSeq env bs n st).2.2 = bs := by
  intro bs
  induction bs with
  | nil => intro n st; rfl
  | cons b bs ih =>
    intro n st
    simp only [sendByteSeq]
    rw [dataWrites_append]
    have hb : dataWrites (i2cSendByte env n st b).2.2 = [b] := rfl
    rw [hb, ih]
    rfl

/-- C4: i2cSendData on argc variadic arguments is equal — phase counter,
register file and full event trace — to argc sequential i2cSendByte
calls on those arguments in argument order, for every hardware response
(so in particular regardless of any individual acknowledgment outcome);
and its data-register writes are exactly the argc arguments in order, so
a failed acknowledgment on one byte never prevents the following bytes
from being sent. -/
theorem i2cSendData_eq_sendByte_calls (env vaArg : Nat → Nat)
    (argc n : Nat) (st : Regs) :
    i2cSendData env vaArg argc n st =
      sendByteSeq env ((List.range argc).map vaArg) n st ∧
    dataWrites (i2cSendData env vaArg argc n st).2.2 =
      (List.range argc).map vaArg := by
  have hmap : ((List.range argc).map fun j => vaArg (0 + j)) =
      (List.range argc).map vaArg :=
    List.map_congr_left fun j _ => by rw [Nat.zero_add]
  have h : i2cSendData env vaArg argc n st =
      sendByteSeq env ((List.range argc).map vaArg) n st := by
    show i2cSendDataLoop env vaArg 0 argc n st = _
    rw [sendDataLoop_eq_seq env vaArg argc 0 n st, hmap]
  exact ⟨h, by rw [h, sendByteSeq_dataWrites]⟩

/-- Helper: if the completion flag is clear on every poll before index
i + d and set at index i + d, the poll loop started at index i with
d + 1 fuel returns exactly index i + d. -/
theorem awaitPoll_reaches (polls : Nat → Nat) :
    ∀ (d i : Nat), (∀ j, i ≤ j → j < i + d → polls j &&& 0x80 = 0) →
      polls (i + d) &&& 0x80 ≠ 0 →
      awaitPoll polls i (d + 1) = some (i + d) := by
  intro d
  induction d with
  | zero =>
    intro i _ hp
    have hp' : polls i &&& 0x80 ≠ 0 := by simpa using hp
    simp [awaitPoll, hp']
  | succ d ih =>
    intro i hall hp
    have h0 : polls i &&& 0x80 = 0 := hall i (Nat.le_refl i) (by omega)
    have hp' : polls (i + 1 + d) &&& 0x80 ≠ 0 := by
      rw [show i + 1 + d = i + (d + 1) from by omega]
      exact hp
    have hrec := ih (i + 1) (fun j hj1 hj2 => hall j (by omega) (by omega)) hp'
    rw [show awaitPoll polls i (d + 1 + 1) =
        if polls i &&& 0x80 ≠ 0 then some i
        else awaitPoll polls (i + 1) (d + 1) from rfl]
    rw [if_neg (by omega), hrec, show i + 1 + d = i + (d + 1) from by omega]

/-- C8: the embedded poll loop of i2cAwaitCompletion busy-reads the
completion flag (bit 7 of the control register).  If some read shows
the flag set, there is enough fuel for the loop to return, and it
returns exactly the first read with the flag set (every earlier read
saw the flag clear).  If no read ever shows the flag set, the loop
returns on no amount of fuel — there is no timeout or iteration bound.
The loop body writes no register: the caller-visible effect of
i2cAwaitCompletion contains no register-write event, and the registers
the driver owns the values of (TWBR, TWDR) are untouched. -/
theorem i2cAwaitCompletion_busy_poll (polls : Nat → Nat) :
    (∀ _h : ∃ i, polls i &&& 0x80 ≠ 0,
      ∃ fuel k, awaitPoll polls 0 fuel = some k ∧
        polls k &&& 0x80 ≠ 0 ∧ ∀ j < k, polls j &&& 0x80 = 0) ∧
    ((∀ i, polls i &&& 0x80 = 0) →
      ∀ fuel i, awaitPoll polls i fuel = none) ∧
    (∀ (env : Nat → Nat) (n : Nat) (st : Regs),
      regWrites (i2cAwaitCompletion env n st).2.2 = [] ∧
      (i2cAwaitCompletion env n st).2.1.twbr = st.twbr ∧
      (i2cAwaitCompletion env n st).2.1.twdr = st.twdr) := by
  refine ⟨?_, ?_, fun env n st => ⟨rfl, rfl, rfl⟩⟩
  · intro h
    refine ⟨Nat.find h + 1, Nat.find h, ?_, Nat.find_spec h, ?_⟩
    · have hmin : ∀ j, 0 ≤ j → j < 0 + Nat.find h → polls j &&& 0x80 = 0 := by
        intro j _ hj
        have hne := Nat.find_min h (show j < Nat.find h by omega)
        omega
      have hk : polls (0 + Nat.find h) &&& 0x80 ≠ 0 := by
        rw [Nat.zero_add]
        exact Nat.find_spec h
      have hr := awaitPoll_reaches polls (Nat.find h) 0 hmin hk
      rw [Nat.zero_add] at hr
      exact hr
    · intro j hj
      have hne := Nat.find_min h hj
      omega
  · intro hall fuel
    induction fuel with
    | zero => intro i; rfl
    | succ fuel ih =>
      intro i
      simp only [awaitPoll]
      rw [if_neg (by have := hall i; omega)]
      exact ih (i + 1)

/-- Witness for C8: on a bus whose control register always reads 0x84
with the completion flag (bit 7) set, the poll loop terminates at the
very first read. -/
theorem i2cAwaitCompletion_busy_poll_witness :
    ∃ fuel k, awaitPoll (fun _ => 0x84) 0 fuel = some k ∧
      (0x84 : Nat) &&& 0x80 ≠ 0 ∧ ∀ j < k, (0x84 : Nat) &&& 0x80 = 0 :=
  (i2cAwaitCompletion_busy_poll (fun _ => 0x84)).1 ⟨0, by decide⟩

/-- Helper: the i2cSendData loop leaves the bit rate divisor register
and the prescaler bits (bits 1:0 of the status register) unchanged, for
every starting index, phase counter, state and hardware response. -/
theorem sendDataLoop_clock_preserved (env vaArg : Nat → Nat) :
    ∀ (rem i n : Nat) (st : Regs),
      (i2cSendDataLoop env vaArg i rem n st).2.1.twbr = st.twbr ∧
      (i2cSendDataLoop env vaArg i rem n st).2.1.twsr % 4 = st.twsr % 4 := by
  intro rem
  induction rem with
  | zero => intro i n st; exact ⟨rfl, rfl⟩
  | succ rem ih =>
    intro i n st
    simp only [i2cSendDataLoop]
    obtain ⟨h1, h2⟩ := ih (i + 1) (i2cSendByte env n st (vaArg i)).1
      (i2cSendByte env n st (vaArg i)).2.1
    have hst := (i2cSendByte_result_state env n st (vaArg i)).2
    constructor
    · rw [h1, hst]
    · rw [h2, hst]
      show (8 * (env n % 32) + st.twsr % 8) % 4 = st.twsr % 4
      omega

/-- C9: after initialization the clock configuration is never written
again — every other operation of the driver (issueStart, selectAddress,
sendByte, sendBytes, awaitCompletion, issueStop) leaves the bit rate
divisor register TWBR and the prescaler bits (bits 1:0 of the status
register TWSR) exactly as it found them, for every register state,
phase counter, argument list and hardware response.  The remaining
public operation, i2cCheckStatus, produces no register state at all by
its type (it only reads TWSR), so it cannot write either value. -/
theorem clock_config_never_rewritten (env vaArg : Nat → Nat)
    (n argc : Nat) (st : Regs) (address rw b : Nat) :
    ((i2cStart env n st).2.1.twbr = st.twbr ∧
     (i2cStart env n st).2.1.twsr % 4 = st.twsr % 4) ∧
    ((i2cSendAddress env n st address rw).2.1.twbr = st.twbr ∧
     (i2cSendAddress env n st address rw).2.1.twsr % 4 = st.twsr % 4) ∧
    ((i2cSendByte env n st b).2.1.twbr = st.twbr ∧
     (i2cSendByte env n st b).2.1.twsr % 4 = st.twsr % 4) ∧
    ((i2cSendData env vaArg argc n st).2.1.twbr = st.twbr ∧
     (i2cSendData env vaArg argc n st).2.1.twsr % 4 = st.twsr % 4) ∧
    ((i2cAwaitCompletion env n st).2.1.twbr = st.twbr ∧
     (i2cAwaitCompletion env n st).2.1.twsr % 4 = st.twsr % 4) ∧
    ((i2cStop n st).2.1.twbr = st.twbr ∧
     (i2cStop n st).2.1.twsr % 4 = st.twsr % 4) := by
  refine ⟨⟨rfl, ?_⟩, ⟨rfl, ?_⟩, ⟨rfl, ?_⟩,
    sendDataLoop_clock_preserved env vaArg argc 0 n st, ⟨rfl, ?_⟩, ⟨rfl, rfl⟩⟩
  · show (8 * (env n % 32) + st.twsr % 8) % 4 = st.twsr % 4
    omega
  · show (8 * (env n % 32) + st.twsr % 8) % 4 = st.twsr % 4
    omega
  · show (8 * (env n % 32) + st.twsr % 8) % 4 = st.twsr % 4
    omega
  · show (8 * (env n % 32) + st.twsr % 8) % 4 = st.twsr % 4
    omega

/-- Helper: every status comparison the i2cSendData loop computes
expects TW_MT_DATA_ACK — one comparison per remaining byte. -/
theorem sendDataLoop_expected_codes (env vaArg : Nat → Nat) :
    ∀ (rem i n : Nat) (st : Regs),
      expectedCodes (i2cSendDataLoop env vaArg i rem n st).2.2 =
        List.replicate rem TW_MT_DATA_ACK := by
  intro rem
  induction rem with
  | zero => intro i n st; rfl
  | succ rem ih =>
    intro i n st
    simp only [i2cSendDataLoop]
    rw [expectedCodes_append]
    have hb : expectedCodes (i2cSendByte env n st (vaArg i)).2.2 =
        [TW_MT_DATA_ACK] := rfl
    rw [hb, ih, List.replicate_succ]
    rfl

/-- C10: for every direction argument — the read direction included —
i2cSendAddress compares the resulting status against the single code
TW_MT_SLA_ACK (address+write acknowledged), and the master-receiver
code TW_MR_SLA_ACK (address+read acknowledged) is the expected status
of no comparison computed by any operation of the driver. -/
theorem i2cSendAddress_only_expects_mt_sla_ack (env vaArg : Nat → Nat)
    (n argc : Nat) (st : Regs) (address rw b : Nat) :
    expectedCodes (i2cSendAddress env n st address rw).2.2 = [TW_MT_SLA_ACK] ∧
    expectedCodes (i2cStart env n st).2.2 = [TW_START] ∧
    expectedCodes (i2cSendByte env n st b).2.2 = [TW_MT_DATA_ACK] ∧
    expectedCodes (i2cSendData env vaArg argc n st).2.2 =
      List.replicate argc TW_MT_DATA_ACK ∧
    expectedCodes (i2cStop n st).2.2 = [] ∧
    expectedCodes (i2cAwaitCompletion env n st).2.2 = [] ∧
    TW_MR_SLA_ACK ∉ expectedCodes (i2cSendAddress env n st address rw).2.2 ∧
    TW_MR_SLA_ACK ∉ expectedCodes (i2cSendData env vaArg argc n st).2.2 := by
  have hsd := sendDataLoop_expected_codes env vaArg argc 0 n st
  refine ⟨rfl, rfl, rfl, hsd, rfl, rfl, ?_, ?_⟩
  · rw [show expectedCodes (i2cSendAddress env n st address rw).2.2 =
        [TW_MT_SLA_ACK] from rfl]
    decide
  · rw [show expectedCodes (i2cSendData env vaArg argc n st).2.2 =
        List.replicate argc TW_MT_DATA_ACK from hsd]
    intro hmem
    have heq := List.eq_of_mem_replicate hmem
    exact absurd heq (by decide)
